import Mathlib

/-!
Verification of the session-state inference and process-correlation logic of
`src/process_tracker.py` (session dashboard for a desktop AI-CLI tool).

Shallow embedding conventions:

* A parsed JSON event object is modelled by the structure `Event` below.  The
  Python code only ever accesses a fixed set of fields via `dict.get(key,
  default)`, so a missing field and a field holding the default value are
  observationally identical; the model therefore stores each field with the
  Python default already applied (`""` for strings, `[]` for lists).
* One raw line of an `events.jsonl` file is modelled by `LogLine`: the result
  of `json.loads` on the line (`none` = the line is malformed and raises
  `json.JSONDecodeError`), together with the two raw-text substring facts that
  `_get_session_state` pre-checks before parsing.
* ISO-8601 timestamp parsing (`datetime.fromisoformat`, a Python library
  routine and an external collaborator here) is modelled by an oracle
  parameter `parseTs : String → Option Int` giving the instant in whole
  seconds, `none` meaning the library raises `ValueError`/`TypeError`.
  Time deltas (`total_seconds()`) are correspondingly modelled at whole-second
  granularity, which is exact for every threshold the code compares against.
* OS subprocess scans, the filesystem and the wall clock are likewise oracle
  parameters of the functions that consume them.
* Machine floats for monotonic clock readings are modelled as integers
  (seconds); only ordering and differences against small constants are used.
* The tail-buffer file read of `_read_recent_events` is modelled at the level
  of the list of non-empty stripped lines of the file, for logs that fit
  inside the 16 KiB tail buffer (`read_from = 0`, so no truncated first-line
  discard happens); this is the situation all the claims quantify over.
-/

namespace GhcpDashboard

/-- A parsed JSON event object, restricted to the fields that
`process_tracker.py` reads, each with its `dict.get` default applied. -/
structure Event where
  type : String := ""
  timestamp : String := ""
  toolCallId : String := ""
  toolName : String := ""
  question : String := ""
  choices : List String := []
  agentDisplayName : String := ""
  agentName : String := ""
  agentDescription : String := ""
  deriving DecidableEq

/-- One raw line of an `events.jsonl` file: the two substring pre-checks that
`_get_session_state` performs on the raw text, and the result of `json.loads`
(`none` = malformed line). -/
structure LogLine where
  /-- whether the raw text contains the substring `"subagent.started"` -/
  startedSub : Bool := false
  /-- whether the raw text contains the substring `"subagent.completed"` -/
  completedSub : Bool := false
  /-- result of `json.loads` on the line -/
  json : Option Event := none
  deriving DecidableEq

/-- `models.BackgroundTask`. -/
structure BackgroundTask where
  agent_name : String := ""
  description : String := ""
  deriving DecidableEq

/-- `models.SessionState`. -/
structure SessionState where
  state : String := "unknown"
  waiting_context : String := ""
  bg_tasks : Nat := 0
  bg_task_list : List BackgroundTask := []
  deriving DecidableEq

/-- `models.ProcessInfo`. -/
structure ProcessInfo where
  pid : Int := 0
  parent_pid : Int := 0
  terminal_pid : Int := 0
  terminal_name : String := ""
  cmdline : String := ""
  yolo : Bool := false
  state : String := "unknown"
  waiting_context : String := ""
  bg_tasks : Nat := 0
  bg_task_list : List BackgroundTask := []
  mcp_servers : List String := []
  deriving DecidableEq

/-- `models.EventData`. -/
structure EventData where
  mcp_servers : List String := []
  tool_calls : Nat := 0
  subagent_runs : Nat := 0
  cwd : String := ""
  branch : String := ""
  repository : String := ""
  intent : String := ""
  deriving DecidableEq

/-- `models.RunningCache`. -/
structure RunningCache where
  data : List (String × ProcessInfo) := []
  time : Int := 0
  deriving DecidableEq

/-- `constants.EVENT_STALENESS_THRESHOLD` (seconds). -/
def EVENT_STALENESS_THRESHOLD : Int := 60

/-- `constants.RUNNING_CACHE_TTL` (seconds). -/
def RUNNING_CACHE_TTL : Int := 5

/-- `constants.PROCESS_MATCH_TOLERANCE` (seconds). -/
def PROCESS_MATCH_TOLERANCE : Int := 10

/-- `WAITING_TOOLS` from `process_tracker.py`. -/
def WAITING_TOOLS : List String := ["ask_user", "ask_permission"]

/-- Python dict insertion-order semantics, modelled on an association list:
`d[k] = v` overwrites in place when the key exists (keeping its position in
iteration order) and appends otherwise. -/
def dictInsert (l : List (String × α)) (k : String) (v : α) : List (String × α) :=
  if (l.find? (fun p => p.1 == k)).isSome then
    l.map (fun p => if p.1 == k then (k, v) else p)
  else l ++ [(k, v)]

/-- Python `d.pop(k, None)`: remove the entry with key `k` if present. -/
def dictPop (l : List (String × α)) (k : String) : List (String × α) :=
  l.filter (fun p => p.1 != k)

/-- Python's negative-index slice `xs[-count:]` (note `xs[-0:]` is the whole
list). -/
def pyTail (xs : List α) (count : Nat) : List α :=
  if count = 0 then xs else xs.drop (xs.length - count)

/-- `_read_recent_events(session_id, count)` for a log that fits inside the
tail buffer, as a function of the per-line `json.loads` outcomes: keep the
last `count` raw lines (`raw_lines[-count:]`), parse each, and skip (rather
than fail on) every line whose parse raises `json.JSONDecodeError`. -/
def read_recent_events (lines : List (Option α)) (count : Nat) : List α :=
  (pyTail lines count).filterMap id

/-- Modelled from the spec: "Parse remaining lines as JSON, skipping (not
failing on) any line that fails to parse ... Return the last N successfully
parsed events."  I.e. first parse every line, then take the last N parsed
events.  Kept only for comparison with `read_recent_events`, which is the
embedding of the code. -/
def read_recent_events_spec (lines : List (Option α)) (count : Nat) : List α :=
  pyTail (lines.filterMap id) count

/-- The `events` list used by `_get_session_state`:
`_read_recent_events(session_id, 30)`. -/
def recentEvents (lines : List LogLine) : List Event :=
  read_recent_events (lines.map LogLine.json) 30

/-- `events[-1]` (only consulted on branches where `events` is non-empty). -/
def lastRecent (lines : List LogLine) : Event :=
  (recentEvents lines).getLast?.getD {}

/-- One step of the full-file subagent scan of `_get_session_state`: the
substring pre-checks on the raw line (an `elif`, so a line containing both
substrings is treated as a start), then `json.loads` guarded by
`try/except: pass`, then `started[tcid] = BackgroundTask(...)` resp.
`started.pop(tcid, None)`. -/
def subagentStep (started : List (String × BackgroundTask)) (ln : LogLine) :
    List (String × BackgroundTask) :=
  if ln.startedSub then
    match ln.json with
    | some evt =>
      if evt.toolCallId ≠ "" then
        dictInsert started evt.toolCallId
          { agent_name := if evt.agentDisplayName ≠ "" then evt.agentDisplayName
                          else evt.agentName,
            description := evt.agentDescription }
      else started
    | none => started
  else if ln.completedSub then
    match ln.json with
    | some evt => dictPop started evt.toolCallId
    | none => started
  else started

/-- The full-file scan of `_get_session_state` that correlates
`subagent.started` / `subagent.completed` events by `toolCallId`; the
resulting dict holds the started-but-not-completed subagents. -/
def scanSubagents (lines : List LogLine) : List (String × BackgroundTask) :=
  lines.foldl subagentStep []

/-- One step of the pending-tool tracking of `_get_session_state` over the
recent events: `tool.execution_start` inserts (when `toolCallId` is
non-empty), `tool.execution_complete` removes. -/
def pendingStep (pt : List (String × Event)) (ev : Event) : List (String × Event) :=
  if ev.type = "tool.execution_start" then
    if ev.toolCallId ≠ "" then dictInsert pt ev.toolCallId ev else pt
  else if ev.type = "tool.execution_complete" then dictPop pt ev.toolCallId
  else pt

/-- `pending_tools` of `_get_session_state`: `toolCallId → event data`, in
dict insertion order. -/
def pendingTools (events : List Event) : List (String × Event) :=
  events.foldl pendingStep []

/-- `tool in WAITING_TOOLS` for a pending-tools entry. -/
def isWaitingEntry (p : String × Event) : Bool :=
  WAITING_TOOLS.contains p.2.toolName

/-- `has_pending_work`: some pending tool is not `report_intent`.  (In the
code the flag is accumulated by the same loop that returns early on the first
waiting tool; on the branch where no pending tool is a waiting tool — the only
branch where the flag is read — this is equivalent.) -/
def hasPendingWork (pending : List (String × Event)) : Bool :=
  pending.any (fun p => p.2.toolName != "report_intent")

/-- The waiting context built for a pending waiting tool: the `question`
argument, plus up to the first 4 `choices` joined with `" / "` in square
brackets when choices are present. -/
def waitingCtx (d : Event) : String :=
  d.question ++
    (if d.choices = [] then ""
     else " [" ++ String.intercalate " / " (d.choices.take 4) ++ "]")

/-- `_get_session_state(session_id)`, as a function of the session's log
lines (`lines`), the timestamp-parsing oracle `parseTs` (modelling
`datetime.fromisoformat(ts.replace("Z", "+00:00"))`, `none` = raises) and the
current wall-clock instant `now` (`datetime.now(UTC)`), in seconds. -/
def get_session_state (parseTs : String → Option Int) (now : Int)
    (lines : List LogLine) : SessionState :=
  let events := recentEvents lines
  if events = [] then
    { state := "unknown", waiting_context := "", bg_tasks := 0, bg_task_list := [] }
  else
    let started := scanSubagents lines
    let bg := started.length
    let bgList := started.map Prod.snd
    let pending := pendingTools events
    match pending.find? isWaitingEntry with
    | some p =>
      { state := "waiting", waiting_context := waitingCtx p.2,
        bg_tasks := bg, bg_task_list := bgList }
    | none =>
      if hasPendingWork pending then
        let lastTs := (lastRecent lines).timestamp
        if lastTs ≠ "" then
          match parseTs lastTs with
          | some t =>
            if now - t > EVENT_STALENESS_THRESHOLD then
              { state := "waiting", waiting_context := "Session likely waiting for input",
                bg_tasks := bg, bg_task_list := bgList }
            else
              { state := "working", waiting_context := "", bg_tasks := bg, bg_task_list := bgList }
          | none =>
            { state := "working", waiting_context := "", bg_tasks := bg, bg_task_list := bgList }
        else
          { state := "working", waiting_context := "", bg_tasks := bg, bg_task_list := bgList }
      else
        let last := lastRecent lines
        if last.type = "assistant.turn_end" then
          { state := "idle", waiting_context := "Session idle — waiting for user message",
            bg_tasks := bg, bg_task_list := bgList }
        else if last.type = "tool.execution_start" then
          if WAITING_TOOLS.contains last.toolName then
            { state := "waiting", waiting_context := last.question,
              bg_tasks := bg, bg_task_list := bgList }
          else
            { state := "working", waiting_context := "", bg_tasks := bg, bg_task_list := bgList }
        else if last.type = "subagent.started" then
          { state := "working", waiting_context := "", bg_tasks := bg, bg_task_list := bgList }
        else if ["tool.execution_complete", "subagent.completed",
                 "assistant.turn_start", "assistant.message"].contains last.type then
          { state := "thinking", waiting_context := "", bg_tasks := bg, bg_task_list := bgList }
        else if last.type = "user.message" then
          { state := "thinking", waiting_context := "", bg_tasks := bg, bg_task_list := bgList }
        else
          { state := "unknown", waiting_context := "", bg_tasks := bg, bg_task_list := bgList }

/-- The delta a session directory contributes inside the loop of
`_match_process_to_session`, given the parsed process creation instant `pt`.
The entry's `Option Event` is the parsed first line of its `events.jsonl`;
`none` collapses all of the code's skip paths that precede the type check
(missing file, blank first line, `json.loads` failure).  The remaining skip
paths (wrong event type, missing timestamp, timestamp-parse failure) yield
`none` here, and a qualifying entry yields the absolute time delta. -/
def candDelta (parseTs : String → Option Int) (pt : Int) (e : Option Event) : Option Int :=
  match e with
  | none => none
  | some evt =>
    if (evt.type = "session.start" ∨ evt.type = "session.resume") ∧ evt.timestamp ≠ "" then
      match parseTs evt.timestamp with
      | some et => some |pt - et|
      | none => none
    else none

/-- One iteration of the best-match loop of `_match_process_to_session`:
update `(best_sid, best_delta)` when the entry's delta is strictly below the
current best. -/
def matchStep (parseTs : String → Option Int) (pt : Int)
    (b : Option String × Int) (sd : String × Option Event) : Option String × Int :=
  match candDelta parseTs pt sd.2 with
  | some d => if d < b.2 then (some sd.1, d) else b
  | none => b

/-- `_match_process_to_session(creation_date_str)`: parse the process
creation timestamp (failure → `None`), then scan the session directories
(`dirs`, in `os.listdir` order, each with the parsed first line of its log)
tracking the best match, starting from `best_delta = PROCESS_MATCH_TOLERANCE`
so only deltas strictly within the tolerance are ever accepted. -/
def match_process_to_session (parseTs : String → Option Int) (creation : String)
    (dirs : List (String × Option Event)) : Option String :=
  match parseTs creation with
  | none => none
  | some pt =>
    (dirs.foldl (matchStep parseTs pt) (none, PROCESS_MATCH_TOLERANCE)).1

/-- The enrichment loop of `get_running_sessions`: for each scanned session,
run `_get_session_state` on its log (`logs sid`) and copy the four state
fields into its `ProcessInfo`. -/
def enrichSessions (parseTs : String → Option Int) (wallNow : Int)
    (logs : String → List LogLine) (sessions : List (String × ProcessInfo)) :
    List (String × ProcessInfo) :=
  sessions.map (fun p =>
    let ss := get_session_state parseTs wallNow (logs p.1)
    (p.1, { p.2 with state := ss.state, waiting_context := ss.waiting_context,
                     bg_tasks := ss.bg_tasks, bg_task_list := ss.bg_task_list }))

/-- `get_running_sessions()`, with the module-level `_running_cache` passed
and returned explicitly (the `_running_lock` serialises the whole body, so the
function is a sequential state transformer).  `now` is the first
`time.monotonic()` reading, `postTime` the second one (taken after a
successful scan, so `now ≤ postTime`).  `scan` is the platform process
enumeration (`_get_running_sessions_windows/_unix`), an OS-subprocess oracle;
`Except.error ()` models any exception raised inside the `try` block.  The
returned `Bool` records whether the underlying enumeration was invoked. -/
def get_running_sessions (parseTs : String → Option Int) (wallNow : Int)
    (logs : String → List LogLine) (now postTime : Int)
    (scan : Except Unit (List (String × ProcessInfo))) (c : RunningCache) :
    List (String × ProcessInfo) × RunningCache × Bool :=
  if now - c.time < RUNNING_CACHE_TTL ∧ c.data ≠ [] then
    (c.data, c, false)
  else
    match scan with
    | Except.ok raw =>
      let sessions := enrichSessions parseTs wallNow logs raw
      (sessions, { data := sessions, time := postTime }, true)
    | Except.error _ => (c.data, c, true)

/-- `get_session_event_data(session_id, is_running)`, with the module-level
`_event_data_cache` passed and returned explicitly.  `readData` is
`_read_event_data` (a full-file scan of the session's log, an oracle here) and
`liveBranch` is `_get_live_branch` (a filesystem read of `.git/HEAD`, `""` on
any failure).  The returned `Bool` records whether a log scan was performed. -/
def get_session_event_data (readData : String → EventData)
    (liveBranch : String → String) (sid : String) (is_running : Bool)
    (cache : List (String × EventData)) :
    EventData × List (String × EventData) × Bool :=
  match (if is_running then none else cache.find? (fun p => p.1 == sid)) with
  | some p => (p.2, cache, false)
  | none =>
    let data := readData sid
    let data := if is_running ∧ data.cwd ≠ "" then
        (let live := liveBranch data.cwd
         if live ≠ "" then { data with branch := live } else data)
      else data
    if is_running then (data, cache, true)
    else (data, dictInsert cache sid data, true)

/-- Python `\s` (ASCII range; the logs and command lines at issue are
ASCII). -/
def isPySpace (c : Char) : Bool :=
  c == ' ' || c == '\t' || c == '\n' || c == '\r' || c == '\x0b' || c == '\x0c'

/-- The literal part of the regex in `_parse_mcp_servers`. -/
def flagChars : List Char := "--additional-mcp-config".toList

/-- Strip a literal off the front of a character list, or fail. -/
def stripLit : List Char → List Char → Option (List Char)
  | [], cs => some cs
  | _ :: _, [] => none
  | p :: ps, c :: cs => if p = c then stripLit ps cs else none

/-- Attempt to match `--additional-mcp-config\s+@?([^\s]+)` at the start of
`cs`, returning the captured group.  When the character after the whitespace
run is `@` and nothing non-blank follows it, the regex engine backtracks
`@?` to empty and the group captures the `@` itself. -/
def matchFlagAt (cs : List Char) : Option (List Char) :=
  match stripLit flagChars cs with
  | none => none
  | some rest =>
    let ws := rest.takeWhile isPySpace
    if ws.isEmpty then none
    else
      let rest2 := rest.drop ws.length
      match rest2 with
      | '@' :: rest3 =>
        let tokB := rest3.takeWhile (fun ch => !(isPySpace ch))
        if tokB.isEmpty then some ['@'] else some tokB
      | _ =>
        let tokA := rest2.takeWhile (fun ch => !(isPySpace ch))
        if tokA.isEmpty then none else some tokA

/-- `re.search` for the pattern of `_parse_mcp_servers`: try each start
position left to right. -/
def searchMcpFlag : List Char → Option (List Char)
  | [] => none
  | c :: cs =>
    match matchFlagAt (c :: cs) with
    | some tok => some tok
    | none => searchMcpFlag cs

/-- Python `s.strip(ch)`: remove every leading and trailing occurrence of
`ch`. -/
def stripCharList (ch : Char) (cs : List Char) : List Char :=
  ((cs.dropWhile (· = ch)).reverse.dropWhile (· = ch)).reverse

/-- `match.group(1).strip('"').strip("'")`. -/
def mcpPath (tok : List Char) : String :=
  String.mk (stripCharList '\'' (stripCharList '"' tok))

/-- The JSON object loaded from an additional-mcp-config file, as far as
`_parse_mcp_servers` inspects it: `data.get("mcpServers", {})` followed by
`list(...keys())`.  A file whose top-level object lacks the key contributes
the default `[]`. -/
structure McpConfig where
  /-- the key names of the `mcpServers` mapping, in insertion order -/
  mcpServers : List String := []
  deriving DecidableEq

/-- `_parse_mcp_servers(cmdline)`.  `fs` is the filesystem/JSON-load oracle:
`fs path = none` models any exception while opening, reading or decoding the
file (missing file, malformed JSON, non-object top level — all caught by the
`except` clause). -/
def parse_mcp_servers (fs : String → Option McpConfig) (cmdline : String) :
    List String :=
  match searchMcpFlag cmdline.toList with
  | none => []
  | some tok =>
    match fs (mcpPath tok) with
    | some cfg => cfg.mcpServers
    | none => []

/-! ### Concrete fixtures used by witnesses and counterexamples -/

/-- A timestamp oracle on which every parse fails. -/
def noTs : String → Option Int := fun _ => none

/-- An event-log oracle with no logs. -/
def noLogs : String → List LogLine := fun _ => []

/-- A `tool.execution_start` event for a non-waiting tool. -/
def evShell : Event :=
  { type := "tool.execution_start"
    timestamp := "TS"
    toolCallId := "t1"
    toolName := "shell" }

/-- The log line carrying `evShell`. -/
def lineShell : LogLine := { json := some evShell }

/-- A timestamp oracle knowing only `evShell`'s timestamp (instant 0). -/
def ptsShell : String → Option Int := fun s => if s = "TS" then some 0 else none

/-- A `tool.execution_start` event for `ask_user` with a question and two
choices. -/
def evAsk : Event :=
  { type := "tool.execution_start"
    timestamp := "T1"
    toolCallId := "t1"
    toolName := "ask_user"
    question := "Pick one"
    choices := ["A", "B"] }

/-- The log line carrying `evAsk`. -/
def lineAsk : LogLine := { json := some evAsk }

/-- A well-formed `subagent.started` log line (raw text contains the
`"subagent.started"` substring). -/
def startedLine : LogLine :=
  { startedSub := true
    json := some { type := "subagent.started"
                   toolCallId := "x"
                   agentName := "researcher"
                   agentDescription := "dig" } }

/-- The matching `subagent.completed` log line. -/
def completedLine : LogLine :=
  { completedSub := true
    json := some { type := "subagent.completed", toolCallId := "x" } }

/-- A malformed log line (`json.loads` raises). -/
def badLine : LogLine := { startedSub := false, completedSub := false, json := none }

/-- A log whose last 30 lines are all malformed while an earlier line is a
`subagent.started` without completion. -/
def badTailLog : List LogLine := startedLine :: List.replicate 30 badLine

/-- A `session.start` first-line event with timestamp token `t30`. -/
def evStart30 : Event := { type := "session.start", timestamp := "t30" }

/-- A `session.start` first-line event with timestamp token `t3`. -/
def evStart3 : Event := { type := "session.start", timestamp := "t3" }

/-- A `session.start` first-line event with timestamp token `t5`. -/
def evStart5 : Event := { type := "session.start", timestamp := "t5" }

/-- Timestamp oracle for the correlator fixtures: creation `c` at instant 0,
session starts at instants 3, 30, −5. -/
def ptsCorr : String → Option Int := fun s =>
  if s = "c" then some 0
  else if s = "t3" then some 3
  else if s = "t30" then some 30
  else if s = "t5" then some (-5)
  else none

/-- Filesystem oracle holding one MCP config file with two server entries. -/
def mcpFsExample : String → Option McpConfig := fun p =>
  if p = "/tmp/mcp.json" then some { mcpServers := ["github", "slack"] } else none

/-! ### Helper lemmas -/

lemma filterMap_id_map_some (l : List α) : (l.map some).filterMap id = l := by
  induction l with
  | nil => rfl
  | cons a l ih => simp [ih]

lemma pyTail_sublist (xs : List α) (count : Nat) : List.Sublist (pyTail xs count) xs := by
  unfold pyTail
  split
  · exact List.Sublist.refl _
  · exact List.drop_sublist _ _

/-! ### Claim C1 -/

/-- Claim C1, corrected.  The code takes `raw_lines[-count:]` **before**
parsing, so with an unparseable line among the last `N` raw lines it does not
reach further back for earlier parsed events: on the log
`[parsed₁, parsed₂, malformed]` a read with count 2 returns only the one
parsed event among the last two lines, whereas "the last 2 successfully
parsed JSON events of the log" are both parsed events. -/
theorem read_recent_events_counterexample :
    read_recent_events [some 1, some 2, (none : Option Nat)] 2 = [2]
  ∧ read_recent_events_spec [some 1, some 2, (none : Option Nat)] 2 = [1, 2]
  ∧ read_recent_events [some 1, some 2, (none : Option Nat)] 2 ≠
      read_recent_events_spec [some 1, some 2, (none : Option Nat)] 2 := by
  refine ⟨by decide, by decide, by decide⟩

/-- Claim C1, amended: for a log fitting the tail buffer, reading recent
events with count `N` returns the successfully parsed events **among the last
`N` log lines**, in file order (a subsequence of the log's parsed events,
skipping unparseable lines without failing); in particular, after writing `N`
parseable events, a tail read with `0 < K ≤ N` returns exactly the last `K`
events in original order. -/
theorem read_recent_events_correct :
    (∀ (α : Type) (lines : List (Option α)) (count : Nat),
      List.Sublist (read_recent_events lines count) (lines.filterMap id))
  ∧ (∀ (α : Type) (evs : List α) (K : Nat), 0 < K → K ≤ evs.length →
      read_recent_events (evs.map some) K = evs.drop (evs.length - K)) := by
  constructor
  · intro α lines count
    exact List.Sublist.filterMap id (pyTail_sublist lines count)
  · intro α evs K hK _
    unfold read_recent_events pyTail
    rw [if_neg (Nat.pos_iff_ne_zero.mp hK), List.length_map, ← List.map_drop,
      filterMap_id_map_some]

/-- Witness for C1: three parseable events, tail-count 2 returns the last
two in order. -/
theorem read_recent_events_correct_witness :
    read_recent_events ([1, 2, 3].map some) 2 = [1, 2, 3].drop ([1, 2, 3].length - 2) :=
  read_recent_events_correct.2 Nat [1, 2, 3] 2 (by decide) (by decide)

lemma find?_map_overwrite (l : List (String × α)) (k : String) (v : α)
    (h : (l.find? (fun p => p.1 == k)).isSome) :
    (l.map (fun p => if p.1 == k then (k, v) else p)).find? (fun p => p.1 == k) =
      some (k, v) := by
  induction l with
  | nil => simp [List.find?] at h
  | cons a l ih =>
    by_cases hk : a.1 = k
    · rw [List.map_cons, if_pos (by simpa using hk), List.find?_cons_of_pos _ (by simp)]
    · rw [List.find?_cons_of_neg _ (by simpa using hk)] at h
      rw [List.map_cons, if_neg (by simpa using hk),
        List.find?_cons_of_neg _ (by simpa using hk)]
      exact ih h

lemma find?_append_of_none (l l₂ : List (String × α)) (p : String × α → Bool)
    (h : l.find? p = none) : (l ++ l₂).find? p = l₂.find? p := by
  induction l with
  | nil => rfl
  | cons a l ih =>
    rw [List.find?] at h
    cases hp : p a with
    | true => rw [hp] at h; cases h
    | false =>
      rw [hp] at h
      rw [List.cons_append, List.find?_cons_of_neg _ (by simp [hp])]
      exact ih h

/-- After a Python-dict insert, looking the key up finds the inserted value. -/
lemma find?_dictInsert (l : List (String × α)) (k : String) (v : α) :
    (dictInsert l k v).find? (fun p => p.1 == k) = some (k, v) := by
  unfold dictInsert
  split
  case isTrue h => exact find?_map_overwrite l k v h
  case isFalse h =>
    rw [find?_append_of_none l _ _ (Option.not_isSome_iff_eq_none.mp h)]
    simp [List.find?]

/-! ### Claim C7 -/

/-- Claim C7: if any exception is raised during a Running-Sessions Cache
refresh (modelled by the `Except.error` outcome of the scan/enrich block),
`get_running_sessions` returns the previously cached mapping and leaves the
cache's `(data, time)` pair unchanged.  (On a cache hit the scan outcome is
never consulted and the same holds.) -/
theorem running_cache_error_keeps_previous (parseTs : String → Option Int)
    (wallNow : Int) (logs : String → List LogLine) (now postTime : Int)
    (c : RunningCache) :
    (get_running_sessions parseTs wallNow logs now postTime (Except.error ()) c).1
      = c.data
  ∧ (get_running_sessions parseTs wallNow logs now postTime (Except.error ()) c).2.1
      = c := by
  unfold get_running_sessions
  split
  · exact ⟨rfl, rfl⟩
  · exact ⟨rfl, rfl⟩

/-! ### Claim C2 -/

/-- Claim C2, corrected.  The cache-hit test requires the cached mapping to be
non-empty (`_running_cache.data` is also tested for truthiness), so a refresh
that finds no running sessions is not cached as a valid entry: two calls 1
second apart, each scanning successfully but finding zero processes, both
invoke the underlying enumeration. -/
theorem running_cache_counterexample :
    (get_running_sessions noTs 0 noLogs 100 100 (Except.ok [])
        { data := [], time := 0 }).2.2 = true
  ∧ (get_running_sessions noTs 0 noLogs 101 101 (Except.ok [])
        ((get_running_sessions noTs 0 noLogs 100 100 (Except.ok [])
          { data := [], time := 0 }).2.1)).2.2 = true := by
  refine ⟨by decide, by decide⟩

/-- Claim C2, amended: two calls within one TTL window (5 s) invoke the
underlying enumeration at most once and, when the first call performed the
refresh, the later call returns the mapping it cached — provided the first
call's refresh (when one happens) succeeds with a **non-empty** session map.
An empty or failed refresh is not stored as a valid cache entry and a later
call re-scans. -/
theorem running_cache_refresh_once (parseTs : String → Option Int) (wallNow : Int)
    (logs : String → List LogLine) (c0 : RunningCache) (n1 m1 n2 m2 : Int)
    (d : List (String × ProcessInfo)) (r2 : Except Unit (List (String × ProcessInfo)))
    (d1 d2 : List (String × ProcessInfo)) (c1 c2 : RunningCache) (s1 s2 : Bool)
    (h1 : n1 ≤ m1) (_h2 : m1 ≤ n2) (h3 : n2 - n1 < RUNNING_CACHE_TTL) (hd : d ≠ [])
    (hR1 : get_running_sessions parseTs wallNow logs n1 m1 (Except.ok d) c0 = (d1, c1, s1))
    (hR2 : get_running_sessions parseTs wallNow logs n2 m2 r2 c1 = (d2, c2, s2)) :
    ¬(s1 = true ∧ s2 = true) ∧ (s1 = true → s2 = false ∧ d2 = c1.data) := by
  unfold get_running_sessions at hR1
  by_cases hhit : n1 - c0.time < RUNNING_CACHE_TTL ∧ c0.data ≠ []
  · rw [if_pos hhit] at hR1
    cases hR1
    exact ⟨fun h => Bool.noConfusion h.1, fun h => Bool.noConfusion h⟩
  · rw [if_neg hhit] at hR1
    cases hR1
    have henr : enrichSessions parseTs wallNow logs d ≠ [] := by
      intro h
      exact hd (List.map_eq_nil_iff.mp h)
    have httl : n2 - (RunningCache.mk (enrichSessions parseTs wallNow logs d) m1).time <
        RUNNING_CACHE_TTL := by
      show n2 - m1 < RUNNING_CACHE_TTL
      simp only [RUNNING_CACHE_TTL] at h3 ⊢
      omega
    unfold get_running_sessions at hR2
    rw [if_pos ⟨httl, henr⟩] at hR2
    cases hR2
    exact ⟨fun h => Bool.noConfusion h.2, fun _ => ⟨rfl, rfl⟩⟩

/-- Witness for C2 (amended): a first call that refreshes and caches one
session, then a call 1 second later that reuses the cache without scanning. -/
theorem running_cache_refresh_once_witness :
    ¬((true : Bool) = true ∧ (false : Bool) = true)
  ∧ ((true : Bool) = true →
      (false : Bool) = false ∧
      [("s", ({} : ProcessInfo))] = (RunningCache.mk [("s", {})] 100).data) :=
  running_cache_refresh_once noTs 0 noLogs { data := [], time := 0 } 100 100 101 101
    [("s", {})] (Except.ok []) [("s", {})] [("s", {})]
    (RunningCache.mk [("s", {})] 100) (RunningCache.mk [("s", {})] 100) true false
    (by decide) (by decide) (by decide) (by decide) (by decide) (by decide)

/-! ### Claim C8 -/

/-- Claim C8: for the Event-Data Cache, a second `get_session_event_data`
call for the same session with `is_running = False` returns exactly the value
stored by the first call, leaves the cache unchanged, and performs no rescan;
and a call with `is_running = True` never inserts into the permanent cache. -/
theorem event_data_cache_correct (readData : String → EventData)
    (liveBranch : String → String) (sid : String)
    (c0 : List (String × EventData)) :
    ((get_session_event_data readData liveBranch sid false
        ((get_session_event_data readData liveBranch sid false c0).2.1)).1
      = (get_session_event_data readData liveBranch sid false c0).1)
  ∧ ((get_session_event_data readData liveBranch sid false
        ((get_session_event_data readData liveBranch sid false c0).2.1)).2.1
      = (get_session_event_data readData liveBranch sid false c0).2.1)
  ∧ ((get_session_event_data readData liveBranch sid false
        ((get_session_event_data readData liveBranch sid false c0).2.1)).2.2
      = false)
  ∧ (∀ c : List (String × EventData),
      (get_session_event_data readData liveBranch sid true c).2.1 = c) := by
  refine ⟨?_, ?_, ?_, fun c => by simp [get_session_event_data]⟩ <;>
  · cases h : c0.find? (fun p => p.1 == sid) with
    | some p => simp [get_session_event_data, h]
    | none => simp [get_session_event_data, h, find?_dictInsert]

/-! ### Claim C9 -/

/-- Claim C9: parsing `--additional-mcp-config` from a command line.  When
the flag's path token is extracted and the referenced JSON file loads, the
result is the key list of its `mcpServers` mapping (for the example config
`\x7b"mcpServers": \x7b"github":..., "slack":...\x7d\x7d`, the names `github`
and `slack`); when the flag is absent, or the file is missing or malformed
(the load oracle fails), the result is the empty list — and the Lean model is
total, mirroring that the code catches every exception on this path. -/
theorem parse_mcp_servers_correct (fs : String → Option McpConfig) (cmdline : String) :
    (searchMcpFlag cmdline.toList = none → parse_mcp_servers fs cmdline = [])
  ∧ (∀ tok, searchMcpFlag cmdline.toList = some tok → fs (mcpPath tok) = none →
      parse_mcp_servers fs cmdline = [])
  ∧ (∀ tok cfg, searchMcpFlag cmdline.toList = some tok → fs (mcpPath tok) = some cfg →
      parse_mcp_servers fs cmdline = cfg.mcpServers)
  ∧ parse_mcp_servers mcpFsExample
      "copilot --additional-mcp-config /tmp/mcp.json" = ["github", "slack"] := by
  refine ⟨?_, ?_, ?_, by decide⟩
  · intro h; simp only [parse_mcp_servers, h]
  · intro tok h hfs; simp only [parse_mcp_servers, h, hfs]
  · intro tok cfg h hfs; simp only [parse_mcp_servers, h, hfs]

/-- Witness for C9: the flag is present but the file is missing, so the
result is the empty list. -/
theorem parse_mcp_servers_correct_witness :
    parse_mcp_servers mcpFsExample
      "copilot --additional-mcp-config /tmp/missing.json" = [] :=
  (parse_mcp_servers_correct mcpFsExample
      "copilot --additional-mcp-config /tmp/missing.json").2.1
    "/tmp/missing.json".toList (by decide) (by decide)

lemma recentEvents_ne_nil_of_find? (lines : List LogLine) (p : String × Event)
    (h : (pendingTools (recentEvents lines)).find? isWaitingEntry = some p) :
    recentEvents lines ≠ [] := by
  intro hnil
  rw [hnil] at h
  simp [pendingTools, List.find?] at h

lemma recentEvents_ne_nil_of_pending (lines : List LogLine)
    (h : hasPendingWork (pendingTools (recentEvents lines)) = true) :
    recentEvents lines ≠ [] := by
  intro hnil
  rw [hnil] at h
  simp [pendingTools, hasPendingWork] at h

/-- On the branch where no pending tool is a waiting tool but some pending
tool is non-trivial, `_get_session_state` reduces to the staleness check on
the last recent event's timestamp. -/
lemma get_session_state_pending_branch (parseTs : String → Option Int) (now : Int)
    (lines : List LogLine)
    (hno : (pendingTools (recentEvents lines)).find? isWaitingEntry = none)
    (hwork : hasPendingWork (pendingTools (recentEvents lines)) = true) :
    get_session_state parseTs now lines =
      (if (lastRecent lines).timestamp ≠ "" then
        match parseTs (lastRecent lines).timestamp with
        | some t =>
          if now - t > EVENT_STALENESS_THRESHOLD then
            { state := "waiting", waiting_context := "Session likely waiting for input",
              bg_tasks := (scanSubagents lines).length,
              bg_task_list := (scanSubagents lines).map Prod.snd }
          else
            { state := "working", waiting_context := "",
              bg_tasks := (scanSubagents lines).length,
              bg_task_list := (scanSubagents lines).map Prod.snd }
        | none =>
          { state := "working", waiting_context := "",
            bg_tasks := (scanSubagents lines).length,
            bg_task_list := (scanSubagents lines).map Prod.snd }
      else
        { state := "working", waiting_context := "",
          bg_tasks := (scanSubagents lines).length,
          bg_task_list := (scanSubagents lines).map Prod.snd }) := by
  have hne := recentEvents_ne_nil_of_pending lines hwork
  unfold get_session_state
  simp only [if_neg hne, hno, hwork, if_true]

/-! ### Claim C3 -/

/-- Claim C3: when some pending tool is neither a waiting tool nor
`report_intent` (`has_pending_work`) and no waiting tool is pending, the
classifier applies the staleness override: a parseable last-event timestamp
older than 60 seconds yields `waiting` with the fixed context
"Session likely waiting for input"; any other outcome of the check
(parseable but fresh, empty, or unparseable) yields `working` with empty
waiting context. -/
theorem session_state_staleness (parseTs : String → Option Int) (now : Int)
    (lines : List LogLine)
    (hno : (pendingTools (recentEvents lines)).find? isWaitingEntry = none)
    (hwork : hasPendingWork (pendingTools (recentEvents lines)) = true) :
    ((lastRecent lines).timestamp ≠ "" →
      ∀ t, parseTs (lastRecent lines).timestamp = some t →
        now - t > EVENT_STALENESS_THRESHOLD →
        get_session_state parseTs now lines =
          { state := "waiting",
            waiting_context := "Session likely waiting for input",
            bg_tasks := (scanSubagents lines).length,
            bg_task_list := (scanSubagents lines).map Prod.snd })
  ∧ (((lastRecent lines).timestamp = "" ∨
      parseTs (lastRecent lines).timestamp = none ∨
      (∃ t, parseTs (lastRecent lines).timestamp = some t ∧
        now - t ≤ EVENT_STALENESS_THRESHOLD)) →
      (get_session_state parseTs now lines).state = "working" ∧
      (get_session_state parseTs now lines).waiting_context = "") := by
  rw [get_session_state_pending_branch parseTs now lines hno hwork]
  constructor
  · intro hts t hparse hstale
    rw [if_pos hts]
    simp [hparse, hstale]
  · intro hcase
    rcases hcase with hempty | hnone | ⟨t, hparse, hfresh⟩
    · rw [if_neg (by simp [hempty])]
      exact ⟨rfl, rfl⟩
    · by_cases hts : (lastRecent lines).timestamp ≠ ""
      · rw [if_pos hts]
        simp [hnone]
      · rw [if_neg hts]
        exact ⟨rfl, rfl⟩
    · by_cases hts : (lastRecent lines).timestamp ≠ ""
      · rw [if_pos hts]
        simp [hparse, show ¬(now - t > EVENT_STALENESS_THRESHOLD) from by omega]
      · rw [if_neg hts]
        exact ⟨rfl, rfl⟩

/-- Witness for C3: a pending `shell` tool whose last event is 120 seconds
old resolves to `waiting` with the fixed staleness context. -/
theorem session_state_staleness_witness :
    get_session_state ptsShell 120 [lineShell] =
      { state := "waiting",
        waiting_context := "Session likely waiting for input",
        bg_tasks := (scanSubagents [lineShell]).length,
        bg_task_list := (scanSubagents [lineShell]).map Prod.snd } :=
  (session_state_staleness ptsShell 120 [lineShell] (by decide) (by decide)).1
    (by decide) 0 (by decide) (by decide)

/-! ### Claim C10 -/

/-- Claim C10: with pending non-trivial work, a last-event timestamp that is
missing/empty or fails to parse makes the classifier silently skip the
staleness override and return `working` with empty waiting context (the model
is a total function: no exception escapes, mirroring the
`except (ValueError, TypeError): pass` guard). -/
theorem session_state_unparseable_timestamp (parseTs : String → Option Int)
    (now : Int) (lines : List LogLine)
    (hno : (pendingTools (recentEvents lines)).find? isWaitingEntry = none)
    (hwork : hasPendingWork (pendingTools (recentEvents lines)) = true)
    (hts : (lastRecent lines).timestamp = "" ∨
      parseTs (lastRecent lines).timestamp = none) :
    (get_session_state parseTs now lines).state = "working" ∧
    (get_session_state parseTs now lines).waiting_context = "" := by
  rw [get_session_state_pending_branch parseTs now lines hno hwork]
  rcases hts with hempty | hnone
  · rw [if_neg (by simp [hempty])]
    exact ⟨rfl, rfl⟩
  · by_cases he : (lastRecent lines).timestamp ≠ ""
    · rw [if_pos he]
      simp [hnone]
    · rw [if_neg he]
      exact ⟨rfl, rfl⟩

/-- Witness for C10: same pending `shell` tool, but no timestamp parses, so
the state is `working` with empty context and no failure. -/
theorem session_state_unparseable_timestamp_witness :
    (get_session_state noTs 120 [lineShell]).state = "working" ∧
    (get_session_state noTs 120 [lineShell]).waiting_context = "" :=
  session_state_unparseable_timestamp noTs 120 [lineShell]
    (by decide) (by decide) (Or.inr rfl)

/-! ### Claim C4 -/

/-- Claim C4: if among the pending tool calls (a `tool.execution_start` not
yet matched by a `tool.execution_complete` with the same `toolCallId`, within
the last 30 events) there is one whose tool name is `ask_user` or
`ask_permission` — `hfind` names the first such entry, the one the loop
returns on — the classifier returns `waiting`, with that tool's `question`
argument followed, when choices are present, by at most the first 4 choices
joined with `" / "` inside square brackets. -/
theorem session_state_waiting_tool (parseTs : String → Option Int) (now : Int)
    (lines : List LogLine) (tcid : String) (d : Event)
    (hfind : (pendingTools (recentEvents lines)).find? isWaitingEntry = some (tcid, d)) :
    get_session_state parseTs now lines =
      { state := "waiting",
        waiting_context := d.question ++
          (if d.choices = [] then ""
           else " [" ++ String.intercalate " / " (d.choices.take 4) ++ "]"),
        bg_tasks := (scanSubagents lines).length,
        bg_task_list := (scanSubagents lines).map Prod.snd } := by
  have hne := recentEvents_ne_nil_of_find? lines (tcid, d) hfind
  unfold get_session_state
  simp only [if_neg hne, hfind]
  rfl

/-- Witness for C4: a single pending `ask_user` with question "Pick one" and
choices `["A", "B"]` gives `waiting` and the context "Pick one [A / B]". -/
theorem session_state_waiting_tool_witness :
    (get_session_state noTs 0 [lineAsk]).state = "waiting" ∧
    (get_session_state noTs 0 [lineAsk]).waiting_context = "Pick one [A / B]" := by
  rw [session_state_waiting_tool noTs 0 [lineAsk] "t1" evAsk (by decide)]
  exact ⟨rfl, by decide⟩

/-! ### Claim C5 -/

/-- Claim C5, corrected.  The "no recent events" early return precedes the
full-file subagent scan and reports `bg_tasks = 0` unconditionally, so on a
log whose last 30 tail lines are all malformed while an earlier line is an
uncompleted `subagent.started`, the classifier returns `bg_tasks = 0` even
though the full-log correlation count is 1. -/
theorem session_state_bg_counterexample :
    (get_session_state noTs 0 badTailLog).bg_tasks = 0
  ∧ (scanSubagents badTailLog).length = 1 := by
  refine ⟨by decide, by decide⟩

/-- Claim C5, amended: on every branch reached when the recent-events read is
non-empty, the returned `SessionState` carries `bg_tasks` equal to the number
of `subagent.started` log lines whose `toolCallId` has no matching later
`subagent.completed` (the full-file correlation), and `bg_task_list` equal to
their captured tasks, identically across branches; the no-events early return
instead reports 0 tasks.  In particular one started line without its
completion gives `bg_tasks = 1`, and adding the matching completion gives
`bg_tasks = 0`. -/
theorem session_state_bg_invariant (parseTs : String → Option Int) (now : Int)
    (lines : List LogLine) (hne : recentEvents lines ≠ []) :
    ((get_session_state parseTs now lines).bg_tasks = (scanSubagents lines).length
     ∧ (get_session_state parseTs now lines).bg_task_list =
        (scanSubagents lines).map Prod.snd)
  ∧ (get_session_state noTs 0 [startedLine]).bg_tasks = 1
  ∧ (get_session_state noTs 0 [startedLine, completedLine]).bg_tasks = 0 := by
  refine ⟨?_, by decide, by decide⟩
  unfold get_session_state
  rw [if_neg hne]
  dsimp only
  repeat' split
  all_goals exact ⟨rfl, rfl⟩

/-- Witness for C5 (amended): on the one-started-line log the recent read is
non-empty and both bg fields equal the full-scan values. -/
theorem session_state_bg_invariant_witness :
    ((get_session_state ptsShell 0 [startedLine]).bg_tasks =
        (scanSubagents [startedLine]).length
     ∧ (get_session_state ptsShell 0 [startedLine]).bg_task_list =
        (scanSubagents [startedLine]).map Prod.snd)
  ∧ (get_session_state noTs 0 [startedLine]).bg_tasks = 1
  ∧ (get_session_state noTs 0 [startedLine, completedLine]).bg_tasks = 0 :=
  session_state_bg_invariant ptsShell 0 [startedLine] (by decide)

lemma matchStep_snd_le (parseTs : String → Option Int) (pt : Int)
    (b : Option String × Int) (x : String × Option Event) :
    (matchStep parseTs pt b x).2 ≤ b.2 := by
  cases hc : candDelta parseTs pt x.2 with
  | none => simp [matchStep, hc]
  | some d =>
    simp only [matchStep, hc]
    split
    · exact le_of_lt ‹d < b.2›
    · exact le_refl _

lemma foldl_matchStep_snd_le (parseTs : String → Option Int) (pt : Int)
    (l : List (String × Option Event)) (b : Option String × Int) :
    (l.foldl (matchStep parseTs pt) b).2 ≤ b.2 := by
  induction l generalizing b with
  | nil => exact le_refl _
  | cons x l ih =>
    rw [List.foldl_cons]
    exact le_trans (ih _) (matchStep_snd_le parseTs pt b x)

lemma foldl_matchStep_min (parseTs : String → Option Int) (pt : Int)
    (l : List (String × Option Event)) (b : Option String × Int) :
    ∀ p ∈ l, ∀ d, candDelta parseTs pt p.2 = some d →
      (l.foldl (matchStep parseTs pt) b).2 ≤ d := by
  induction l generalizing b with
  | nil => intro p hp; cases hp
  | cons x l ih =>
    intro p hp d hd
    rw [List.foldl_cons]
    rcases List.mem_cons.mp hp with rfl | hp
    · have hstep : (matchStep parseTs pt b p).2 ≤ d := by
        simp only [matchStep, hd]
        split
        · exact le_refl d
        · exact le_of_not_lt ‹¬ d < b.2›
      exact le_trans (foldl_matchStep_snd_le parseTs pt l _) hstep
    · exact ih _ p hp d hd

lemma foldl_matchStep_cases (parseTs : String → Option Int) (pt : Int)
    (l : List (String × Option Event)) (b : Option String × Int) :
    l.foldl (matchStep parseTs pt) b = b ∨
    ((l.foldl (matchStep parseTs pt) b).2 < b.2 ∧
      ∃ p ∈ l, ∃ d, candDelta parseTs pt p.2 = some d ∧
        l.foldl (matchStep parseTs pt) b = (some p.1, d)) := by
  induction l generalizing b with
  | nil => exact Or.inl rfl
  | cons x l ih =>
    rw [List.foldl_cons]
    cases hc : candDelta parseTs pt x.2 with
    | none =>
      have hstep : matchStep parseTs pt b x = b := by simp [matchStep, hc]
      rw [hstep]
      rcases ih b with h | ⟨h1, p, hp, d, hd, he⟩
      · exact Or.inl h
      · exact Or.inr ⟨h1, p, List.mem_cons_of_mem _ hp, d, hd, he⟩
    | some d =>
      by_cases hlt : d < b.2
      · have hstep : matchStep parseTs pt b x = (some x.1, d) := by
          simp [matchStep, hc, hlt]
        rw [hstep]
        rcases ih (some x.1, d) with h | ⟨h1, p, hp, d', hd', he⟩
        · refine Or.inr ⟨?_, x, List.mem_cons_self x l, d, hc, h⟩
          rw [h]
          exact hlt
        · refine Or.inr ⟨lt_trans h1 hlt, p, List.mem_cons_of_mem _ hp, d', hd', he⟩
      · have hstep : matchStep parseTs pt b x = b := by
          simp [matchStep, hc, hlt]
        rw [hstep]
        rcases ih b with h | ⟨h1, p, hp, d', hd', he⟩
        · exact Or.inl h
        · exact Or.inr ⟨h1, p, List.mem_cons_of_mem _ hp, d', hd', he⟩

lemma foldl_matchStep_keep (parseTs : String → Option Int) (pt : Int)
    (l : List (String × Option Event)) (b : Option String × Int)
    (hall : ∀ p ∈ l, ∀ d, candDelta parseTs pt p.2 = some d → b.2 ≤ d) :
    l.foldl (matchStep parseTs pt) b = b := by
  induction l with
  | nil => rfl
  | cons x l ih =>
    have hstep : matchStep parseTs pt b x = b := by
      cases hc : candDelta parseTs pt x.2 with
      | none => simp [matchStep, hc]
      | some d =>
        have := hall x (List.mem_cons_self x l) d hc
        simp [matchStep, hc, not_lt.mpr this]
    rw [List.foldl_cons, hstep]
    exact ih (fun p hp d hd => hall p (List.mem_cons_of_mem _ hp) d hd)

/-! ### Claim C6 -/

/-- Claim C6: the correlator returns `some sid` exactly when some session
qualifies within tolerance, and then for the best such session.  Soundness:
a returned `sid` is a session whose first log line is a
`session.start`/`session.resume` event with a parseable timestamp whose
absolute delta to the process creation time is strictly within the 10-second
tolerance and minimal among all qualifying sessions (`candDelta` is `some`
exactly for such first lines, so sessions whose first line is any other event
type are never matched).  When every qualifying session's delta is at least
the tolerance, it returns `none`.  Completeness: when the creation time
parses and some qualifying session's delta is within tolerance, a session is
matched.  Concretely, a lone `session.start` at delta 3 s is matched, and of
two in-tolerance candidates (deltas 5 s and 3 s) the closest is selected. -/
theorem match_process_to_session_correct (parseTs : String → Option Int)
    (creation : String) (dirs : List (String × Option Event)) :
    (∀ sid, match_process_to_session parseTs creation dirs = some sid →
      ∃ pt, parseTs creation = some pt ∧
        ∃ p ∈ dirs, p.1 = sid ∧ ∃ d, candDelta parseTs pt p.2 = some d ∧
          d < PROCESS_MATCH_TOLERANCE ∧
          ∀ q ∈ dirs, ∀ dq, candDelta parseTs pt q.2 = some dq → d ≤ dq)
  ∧ (∀ pt, parseTs creation = some pt →
      (∀ p ∈ dirs, ∀ d, candDelta parseTs pt p.2 = some d →
        PROCESS_MATCH_TOLERANCE ≤ d) →
      match_process_to_session parseTs creation dirs = none)
  ∧ (∀ pt, parseTs creation = some pt →
      ∀ p ∈ dirs, ∀ d, candDelta parseTs pt p.2 = some d →
        d < PROCESS_MATCH_TOLERANCE →
        ∃ sid, match_process_to_session parseTs creation dirs = some sid)
  ∧ match_process_to_session ptsCorr "c" [("s1", some evStart3)] = some "s1"
  ∧ match_process_to_session ptsCorr "c"
      [("a", some evStart5), ("b", some evStart3)] = some "b" := by
  refine ⟨?_, ?_, ?_, by decide, by decide⟩
  · intro sid h
    unfold match_process_to_session at h
    cases hc : parseTs creation with
    | none =>
      rw [hc] at h
      exact Option.noConfusion h
    | some pt =>
      simp only [hc] at h
      refine ⟨pt, rfl, ?_⟩
      rcases foldl_matchStep_cases parseTs pt dirs (none, PROCESS_MATCH_TOLERANCE)
        with he | ⟨h1, p, hp, d, hd, he⟩
      · rw [he] at h
        exact Option.noConfusion h
      · rw [he] at h
        refine ⟨p, hp, by injection h, d, hd, ?_, ?_⟩
        · rw [he] at h1
          exact h1
        · intro q hq dq hdq
          have hmin := foldl_matchStep_min parseTs pt dirs
            (none, PROCESS_MATCH_TOLERANCE) q hq dq hdq
          rw [he] at hmin
          exact hmin
  · intro pt hpt hall
    unfold match_process_to_session
    simp only [hpt]
    rw [foldl_matchStep_keep parseTs pt dirs (none, PROCESS_MATCH_TOLERANCE) hall]
  · intro pt hpt p hp d hd hlt
    unfold match_process_to_session
    simp only [hpt]
    have hmin := foldl_matchStep_min parseTs pt dirs
      (none, PROCESS_MATCH_TOLERANCE) p hp d hd
    rcases foldl_matchStep_cases parseTs pt dirs (none, PROCESS_MATCH_TOLERANCE)
      with he | ⟨_, q, _, dq, _, he⟩
    · rw [he] at hmin
      exact absurd hlt (not_lt.mpr hmin)
    · rw [he]
      exact ⟨q.1, rfl⟩

/-- Witness for C6: a session whose `session.start` delta is 3 seconds
(within the 10-second tolerance) is matched, and one whose delta is 30
seconds (outside the tolerance) is not. -/
theorem match_process_to_session_correct_witness :
    (∃ sid, match_process_to_session ptsCorr "c" [("s1", some evStart3)] = some sid)
  ∧ match_process_to_session ptsCorr "c" [("s1", some evStart30)] = none :=
  ⟨(match_process_to_session_correct ptsCorr "c" [("s1", some evStart3)]).2.2.1
      0 (by decide) ("s1", some evStart3) (by simp) 3 (by decide) (by decide),
   (match_process_to_session_correct ptsCorr "c" [("s1", some evStart30)]).2.1
      0 (by decide)
      (by
        intro p hp d hd
        rw [List.mem_singleton] at hp
        subst hp
        rw [show candDelta ptsCorr 0 (some evStart30) = some 30 from by decide] at hd
        cases hd
        decide)⟩

end GhcpDashboard
